import Mathlib

/-!
Verification of the `networkpype` throttler core.

Source of the data model: `src/networkpype/throttler/rate_limit.py`
(pydantic models `LinkedLimitWeightPair`, `TaskLog`, `RateLimit`).
The throttler and admission-context modules (`throttler.py`, `context.py`)
are not present in the source tree; their behaviour is modelled from the
specification (its §4.1–§4.4 pseudocode) where a definition says so.

Conventions of the embedding:
- Python `int` fields are `Int` (arbitrary precision, possibly negative).
- Python `float` / `Decimal` values carried by this code (timestamps,
  `time_interval`, percentages, safety margins) are embedded as `ℚ`.
- Pydantic construction is embedded as an explicit `validate` function per
  model: each keyword argument is an `Option` (present / omitted), a field
  declared without a default is required, each `ge=…` constraint from the
  source `Field(...)` call is checked, and the result is `Except` an error
  message.
-/

/-- `LinkedLimitWeightPair` record (rate_limit.py, class LinkedLimitWeightPair):
fields `limit_id : str` and `weight : int`. -/
structure LinkedLimitWeightPair where
  limit_id : String
  weight : Int
deriving Repr, DecidableEq

/-- Pydantic construction of `LinkedLimitWeightPair`.
Source field declarations: `limit_id: str = Field(description=...)` (no
default, no constraint) and `weight: int = Field(description=..., ge=0)`
(no default). Both fields are therefore required; `weight` must be ≥ 0. -/
def LinkedLimitWeightPair.validate (limit_id : Option String) (weight : Option Int) :
    Except String LinkedLimitWeightPair :=
  match limit_id with
  | none => Except.error "limit_id: Field required"
  | some lid =>
    match weight with
    | none => Except.error "weight: Field required"
    | some w =>
      if w < 0 then Except.error "weight: Input should be greater than or equal to 0"
      else Except.ok ⟨lid, w⟩

/-- `RateLimit` record (rate_limit.py, class RateLimit). -/
structure RateLimit where
  limit_id : String
  limit : Int
  time_interval : ℚ
  weight : Int
  linked_limits : List LinkedLimitWeightPair
deriving Repr, DecidableEq

/-- Pydantic construction of `RateLimit`.
Source field declarations: `limit_id: str = Field(description=...)` (no
default, no constraint — in particular no non-emptiness or min-length
check); `limit: int = Field(..., ge=0)`; `time_interval: float =
Field(..., ge=0.0)`; `weight: int = Field(..., ge=0)` (the description
string says "Defaults to 1" but the `Field(...)` call passes no default,
so pydantic treats the field as required); `linked_limits:
list[LinkedLimitWeightPair] = Field(default_factory=list, ...)`. -/
def RateLimit.validate (limit_id : Option String) (limit : Option Int)
    (time_interval : Option ℚ) (weight : Option Int)
    (linked_limits : Option (List LinkedLimitWeightPair)) :
    Except String RateLimit :=
  match limit_id with
  | none => Except.error "limit_id: Field required"
  | some lid =>
    match limit with
    | none => Except.error "limit: Field required"
    | some l =>
      if l < 0 then Except.error "limit: Input should be greater than or equal to 0"
      else
        match time_interval with
        | none => Except.error "time_interval: Field required"
        | some ti =>
          if ti < 0 then
            Except.error "time_interval: Input should be greater than or equal to 0"
          else
            match weight with
            | none => Except.error "weight: Field required"
            | some w =>
              if w < 0 then
                Except.error "weight: Input should be greater than or equal to 0"
              else Except.ok ⟨lid, l, ti, w, linked_limits.getD []⟩

/-- `TaskLog` record (rate_limit.py, class TaskLog): holds the full
`RateLimit` object as a back-reference, as the source does. -/
structure TaskLog where
  timestamp : ℚ
  rate_limit : RateLimit
  weight : Int
deriving Repr, DecidableEq

/-- Pydantic construction of `TaskLog`.
Source field declarations: `timestamp: float = Field(description=...)`,
`rate_limit: "RateLimit" = Field(description=...)`, `weight: int =
Field(description=...)`. All three are required (no defaults); NONE of
them carries a `ge=` constraint in the source, so a negative `weight` is
accepted (the class docstring says "Must be non-negative", but no such
validation is declared). -/
def TaskLog.validate (timestamp : Option ℚ) (rate_limit : Option RateLimit)
    (weight : Option Int) : Except String TaskLog :=
  match timestamp with
  | none => Except.error "timestamp: Field required"
  | some ts =>
    match rate_limit with
    | none => Except.error "rate_limit: Field required"
    | some rl =>
      match weight with
      | none => Except.error "weight: Field required"
      | some w => Except.ok ⟨ts, rl, w⟩

/-- Neither `RateLimit` nor `LinkedLimitWeightPair` (nor `TaskLog`) declares a
`model_config` in the source, so pydantic's default configuration applies:
`frozen=False`, i.e. the models are mutable. -/
def pydantic_frozen_default : Bool := false

/-- Pydantic attribute assignment `instance.limit = v` on a `RateLimit`:
rejected only when the model is frozen, which it is not (see
`pydantic_frozen_default`). -/
def RateLimit.setattrLimit (r : RateLimit) (v : Int) : Except String RateLimit :=
  if pydantic_frozen_default then Except.error "Instance is frozen"
  else Except.ok { r with limit := v }

/-- Pydantic attribute assignment `pair.weight = v` on a
`LinkedLimitWeightPair`: rejected only when the model is frozen. -/
def LinkedLimitWeightPair.setattrWeight (p : LinkedLimitWeightPair) (v : Int) :
    Except String LinkedLimitWeightPair :=
  if pydantic_frozen_default then Except.error "Instance is frozen"
  else Except.ok { p with weight := v }

/-- `RateLimit.filter_rate_limits_list` (rate_limit.py): builds a new list by
appending, in order, every limit whose `limit_id` is not in `limit_ids`. -/
def RateLimit.filter_rate_limits_list (rate_limits : List RateLimit)
    (limit_ids : List String) : List RateLimit :=
  rate_limits.foldl
    (fun filtered_list limit =>
      if limit.limit_id ∈ limit_ids then filtered_list
      else filtered_list ++ [limit])
    []

/-! ## Throttler model

`throttler.py` and `context.py` are not in the source tree; the definitions
below are modelled from the specification (§3.4, §4.1–§4.3 and its admission
pseudocode), using the design note that the source prunes each entry via the
entry's own `TaskLog.rate_limit` back-reference. -/

/-- Modelled from the spec: throttler state (§3.4) — the effective rate-limit
list, the shared task log, the retry interval and the safety margin. The
missing source is `AsyncThrottler` in `throttler.py`. -/
structure AsyncThrottler where
  rate_limits : List RateLimit
  task_logs : List TaskLog
  retry_interval : ℚ
  safety_margin_pct : ℚ
deriving Repr, DecidableEq

/-- Modelled from the spec: §4.1 — the effective copy of one descriptor,
`limit` replaced by `floor(original_limit × limits_share_percentage / 100)`,
all other fields copied as-is. -/
def applyShare (pct : ℚ) (L : RateLimit) : RateLimit :=
  { L with limit := Int.floor ((L.limit : ℚ) * pct / 100) }

/-- Modelled from the spec: §4.1 — effective limits produced at construction,
one per input descriptor, order preserved. The missing source is
`AsyncThrottler.__init__` in `throttler.py`. -/
def mkEffectiveLimits (rate_limits : List RateLimit) (pct : ℚ) : List RateLimit :=
  rate_limits.map (applyShare pct)

/-- Lookup of a rate limit by id in the throttler's effective list. -/
def findLimit (t : AsyncThrottler) (id : String) : Option RateLimit :=
  t.rate_limits.find? (fun L => L.limit_id == id)

/-- Modelled from the spec: §4.2 — `get_related_limits`. Returns
`(none, [])` when the id is unknown; otherwise the primary paired with its
own default weight first, then one `(limit, edge weight)` pair per entry of
`primary.linked_limits` whose id resolves, in declaration order. The missing
source is `AsyncThrottler.get_related_limits` in `throttler.py`. -/
def getRelatedLimits (t : AsyncThrottler) (id : String) :
    Option RateLimit × List (RateLimit × Int) :=
  match findLimit t id with
  | none => (none, [])
  | some primary =>
    (some primary,
      (primary, primary.weight) ::
        primary.linked_limits.filterMap (fun e =>
          (findLimit t e.limit_id).map (fun L => (L, e.weight))))

/-- Modelled from the spec: §4.3 pruning — drop every entry `e` with
`now - e.timestamp > time_interval` of the entry's own limit (the
`TaskLog → RateLimit` back-reference, per the §9 design note). -/
def pruneLogs (now : ℚ) (logs : List TaskLog) : List TaskLog :=
  logs.filter (fun e => decide (now - e.timestamp ≤ e.rate_limit.time_interval))

/-- Modelled from the spec: §4.3 — in-window weight sum for limit `L` at time
`now`: entries whose `rate_limit` id equals `L.limit_id` and whose age is at
most `L.time_interval`. -/
def windowSum (logs : List TaskLog) (now : ℚ) (L : RateLimit) : Int :=
  ((logs.filter (fun e =>
      e.rate_limit.limit_id == L.limit_id &&
        decide (now - e.timestamp ≤ L.time_interval))).map
    (fun e => e.weight)).sum

/-- Modelled from the spec: §4.3 — the effective cap
`floor(limit × (1 - safety_margin_pct))`. -/
def effectiveCap (margin : ℚ) (L : RateLimit) : Int :=
  Int.floor ((L.limit : ℚ) * (1 - margin))

/-- Modelled from the spec: §4.3 — the per-admission check: every applicable
`(limit, charge_weight)` pair must satisfy
`window_sum + charge_weight ≤ cap`. -/
def admitCheck (logs : List TaskLog) (now margin : ℚ)
    (related : List (RateLimit × Int)) : Bool :=
  related.all (fun p => decide (windowSum logs now p.1 + p.2 ≤ effectiveCap margin p.1))

/-- Modelled from the spec: §4.3 — the log entries appended by one successful
admission: one `TaskLog(now, limit, charge_weight)` per applicable pair. -/
def admissionEntries (now : ℚ) (related : List (RateLimit × Int)) : List TaskLog :=
  related.map (fun p => TaskLog.mk now p.1 p.2)

/-- Modelled from the spec: one iteration of the §4.3 admission loop, executed
under the lock. Unknown id: the synchronous `NoSuchLimit` failure (the source
tests expect message "Rate limit not found for ID: <id>"). Otherwise prune,
check every applicable limit, and on success append one entry per applicable
limit; on failure keep only the pruned log (the caller will sleep and
retry). Returns whether admission was granted together with the new state. -/
def attemptAcquire (t : AsyncThrottler) (id : String) (now : ℚ) :
    Except String (Bool × AsyncThrottler) :=
  match getRelatedLimits t id with
  | (none, _) => Except.error ("Rate limit not found for ID: " ++ id)
  | (some _, related) =>
    if admitCheck (pruneLogs now t.task_logs) now t.safety_margin_pct related then
      Except.ok (true,
        { t with task_logs := pruneLogs now t.task_logs ++ admissionEntries now related })
    else
      Except.ok (false, { t with task_logs := pruneLogs now t.task_logs })

/-- One observable event of a run: an admission attempt for `id` with the
clock reading `now`; an error or a denial leaves the state as the attempt
left it (a denial persists the pruning, an unknown id changes nothing). -/
def throttlerStep (t : AsyncThrottler) (ev : String × ℚ) : AsyncThrottler :=
  match attemptAcquire t ev.1 ev.2 with
  | Except.error _ => t
  | Except.ok (_, t2) => t2

/-- A run of the throttler: the state after a sequence of attempt events. -/
def throttlerRun (t : AsyncThrottler) (evs : List (String × ℚ)) : AsyncThrottler :=
  evs.foldl throttlerStep t

/-- Outcome of `execute_task` context acquisition: admitted after `sleeps`
retry sleeps, failed synchronously with `NoSuchLimit` (state returned
unchanged), or ran out of polling fuel. -/
inductive AdmitOutcome where
  | admitted (t : AsyncThrottler) (sleeps : ℕ)
  | noSuchLimit (t : AsyncThrottler)
  | outOfFuel (t : AsyncThrottler)
deriving Repr, DecidableEq

/-- Modelled from the spec: the §4.3 polling loop of context acquisition,
with explicit fuel; `k` counts the retry sleeps taken so far and indexes the
clock. The missing source is `AsyncRequestContext.__aenter__` in
`context.py`. -/
def executeTaskLoop (clock : ℕ → ℚ) (id : String) :
    ℕ → ℕ → AsyncThrottler → AdmitOutcome
  | 0, _, t => AdmitOutcome.outOfFuel t
  | fuel + 1, k, t =>
    match attemptAcquire t id (clock k) with
    | Except.error _ => AdmitOutcome.noSuchLimit t
    | Except.ok (true, t2) => AdmitOutcome.admitted t2 k
    | Except.ok (false, t2) => executeTaskLoop clock id fuel (k + 1) t2

/-- Modelled from the spec: `execute_task(limit_id)` context acquisition —
poll from sleep count 0. -/
def executeTask (t : AsyncThrottler) (id : String) (clock : ℕ → ℚ) (fuel : ℕ) :
    AdmitOutcome :=
  executeTaskLoop clock id fuel 0 t

/-- All numeric fields of one validated `RateLimit` are non-negative —
guaranteed by `RateLimit.validate` and `LinkedLimitWeightPair.validate`. -/
def RateLimit.NonnegFields (L : RateLimit) : Prop :=
  0 ≤ L.limit ∧ 0 ≤ L.time_interval ∧ 0 ≤ L.weight ∧
    ∀ p ∈ L.linked_limits, 0 ≤ p.weight

instance (L : RateLimit) : Decidable L.NonnegFields := by
  unfold RateLimit.NonnegFields; infer_instance

/-- Well-formed throttler configuration: unique limit ids (§4.1 validates
duplicates away), validated (non-negative) fields, and a safety margin in
`[0, 1)` (§3.4). -/
def ThrottlerWF (t : AsyncThrottler) : Prop :=
  (t.rate_limits.map (fun L => L.limit_id)).Nodup ∧
    (∀ L ∈ t.rate_limits, L.NonnegFields) ∧
    0 ≤ t.safety_margin_pct ∧ t.safety_margin_pct < 1

instance (t : AsyncThrottler) : Decidable (ThrottlerWF t) := by
  unfold ThrottlerWF; infer_instance

/-- No applicable set double-charges a limit: for every configured limit, the
ids of its related-limits sequence are pairwise distinct (no self-link and no
duplicate edges). -/
def NoDupRelated (t : AsyncThrottler) : Prop :=
  ∀ L ∈ t.rate_limits,
    (((getRelatedLimits t L.limit_id).2).map (fun p => p.1.limit_id)).Nodup

instance (t : AsyncThrottler) : Decidable (NoDupRelated t) := by
  unfold NoDupRelated; infer_instance

/-- Total logged weight attributed to limit id `lid`, over the whole log
(not only the in-window part). -/
def totalWeight (logs : List TaskLog) (lid : String) : Int :=
  ((logs.filter (fun e => e.rate_limit.limit_id == lid)).map (fun e => e.weight)).sum

/-- The inductive log invariant: every entry references a configured limit
and carries a non-negative weight, and for every configured limit the total
logged weight is within the effective cap. -/
def LogInv (t : AsyncThrottler) : Prop :=
  (∀ e ∈ t.task_logs, e.rate_limit ∈ t.rate_limits ∧ 0 ≤ e.weight) ∧
    ∀ L ∈ t.rate_limits, totalWeight t.task_logs L.limit_id ≤
      effectiveCap t.safety_margin_pct L

/-! ## Concrete configurations (from the repository's test fixtures) -/

/-- Test fixture `per_second` limit (test_throttler.py, basic_rate_limits). -/
def perSecondLimit : RateLimit := ⟨"per_second", 10, 1, 1, []⟩

/-- Test fixture `per_minute` limit (test_throttler.py, basic_rate_limits). -/
def perMinuteLimit : RateLimit := ⟨"per_minute", 100, 60, 1, []⟩

/-- Test fixture list (test_throttler.py, basic_rate_limits). -/
def basicLimits : List RateLimit := [perSecondLimit, perMinuteLimit]

/-- A throttler over `basicLimits` with the default `retry_interval = 0.1`
and `safety_margin_pct = 0.05`. -/
def basicThrottler : AsyncThrottler := ⟨basicLimits, [], 1/10, 1/20⟩

/-- Test fixture `endpoint` limit linked to `global` with edge weight 2
(test_throttler.py, linked_rate_limits). -/
def epLimit : RateLimit := ⟨"endpoint", 10, 1, 1, [⟨"global", 2⟩]⟩

/-- Test fixture `global` limit (test_throttler.py, linked_rate_limits). -/
def globalLimit : RateLimit := ⟨"global", 100, 60, 1, []⟩

/-- A throttler over the linked fixture with default parameters. -/
def linkedThrottler : AsyncThrottler := ⟨[epLimit, globalLimit], [], 1/10, 1/20⟩

/-- A limit whose linked edges include an unknown id and duplicate targets,
exercising the skip-unknown and keep-duplicates behaviour of §4.2. -/
def dLimit : RateLimit := ⟨"d", 5, 1, 1, [⟨"global", 2⟩, ⟨"missing", 9⟩, ⟨"global", 3⟩, ⟨"d", 4⟩]⟩

/-- A throttler containing `dLimit` and `globalLimit`, zero safety margin. -/
def dThrottler : AsyncThrottler := ⟨[dLimit, globalLimit], [], 1/10, 0⟩

/-- A self-linked limit: charging "A" charges "A" again with weight 1. -/
def selfALimit : RateLimit := ⟨"A", 1, 1, 1, [⟨"A", 1⟩]⟩

/-- A throttler with only the self-linked limit and zero safety margin. -/
def selfThrottler : AsyncThrottler := ⟨[selfALimit], [], 1/10, 0⟩

/-- Test fixture limit (test_rate_limit.py, test_rate_limit_filter). -/
def testLimit1 : RateLimit := ⟨"test1", 100, 60, 1, []⟩

/-- Test fixture limit (test_rate_limit.py, test_rate_limit_filter). -/
def testLimit2 : RateLimit := ⟨"test2", 200, 60, 1, []⟩

/-- Test fixture limit (test_rate_limit.py, test_rate_limit_filter). -/
def testLimit3 : RateLimit := ⟨"test3", 300, 60, 1, []⟩

/-- Test fixture list (test_rate_limit.py, test_rate_limit_filter). -/
def testLimits : List RateLimit := [testLimit1, testLimit2, testLimit3]

/-! ## Theorems -/

/-- The foldl loop of `filter_rate_limits_list`, generalized over the
accumulator, equals append of a `List.filter`. -/
theorem filter_rate_limits_foldl (rs : List RateLimit) (ex : List String)
    (acc : List RateLimit) :
    rs.foldl
        (fun filtered_list limit =>
          if limit.limit_id ∈ ex then filtered_list else filtered_list ++ [limit])
        acc
      = acc ++ rs.filter (fun l => decide (l.limit_id ∉ ex)) := by
  induction rs generalizing acc with
  | nil => simp
  | cons head tail ih =>
    by_cases h : head.limit_id ∈ ex
    · simp [List.filter_cons, h, ih]
    · simp [List.filter_cons, h, ih]

/-- Claim C9: `filter_rate_limits_list` keeps exactly the limits whose id is
not excluded, in their original relative order; an empty exclusion list
returns the whole list, and an exclusion list covering every id returns the
empty list. -/
theorem C9_filter_rate_limits_spec (rs : List RateLimit) (ex : List String) :
    RateLimit.filter_rate_limits_list rs ex
        = rs.filter (fun l => decide (l.limit_id ∉ ex)) ∧
      (∀ l, l ∈ RateLimit.filter_rate_limits_list rs ex ↔ l ∈ rs ∧ l.limit_id ∉ ex) ∧
      (RateLimit.filter_rate_limits_list rs ex).Sublist rs ∧
      (ex = [] → RateLimit.filter_rate_limits_list rs ex = rs) ∧
      ((∀ l ∈ rs, l.limit_id ∈ ex) → RateLimit.filter_rate_limits_list rs ex = []) := by
  have hmain : RateLimit.filter_rate_limits_list rs ex
      = rs.filter (fun l => decide (l.limit_id ∉ ex)) := by
    unfold RateLimit.filter_rate_limits_list
    simpa using filter_rate_limits_foldl rs ex []
  refine ⟨hmain, ?_, ?_, ?_, ?_⟩
  · intro l
    rw [hmain]
    simp [List.mem_filter]
  · rw [hmain]; exact List.filter_sublist rs
  · intro hex
    subst hex
    rw [hmain]
    simp
  · intro hall
    rw [hmain]
    rw [List.filter_eq_nil_iff]
    intro a ha
    simpa using hall a ha

/-- Witness for C9 at the `test_rate_limit_filter` fixture: an empty
exclusion list returns the input list unchanged. -/
theorem C9_filter_rate_limits_spec_witness :
    RateLimit.filter_rate_limits_list testLimits [] = testLimits :=
  (C9_filter_rate_limits_spec testLimits []).2.2.2.1 rfl

/-- Claim C10: `weight` is a required field with no default on all three
models — omitting it at construction is a validation error (it does not
default to 1). -/
theorem C10_weight_required_all_models :
    RateLimit.validate (some "test") (some 100) (some 60) none none
        = Except.error "weight: Field required" ∧
      LinkedLimitWeightPair.validate (some "test_limit") none
        = Except.error "weight: Field required" ∧
      TaskLog.validate (some 0) (some ⟨"test", 100, 60, 1, []⟩) none
        = Except.error "weight: Field required" := by
  refine ⟨?_, rfl, rfl⟩
  unfold RateLimit.validate
  norm_num

/-- Claim C6 is a code bug: `TaskLog.weight` carries no `ge=0` constraint in
the source (unlike `RateLimit` and `LinkedLimitWeightPair`), so a negative
weight is accepted at construction, contradicting the class docstring "Must
be non-negative". The other parts of the claim hold. -/
theorem C6_tasklog_negative_weight_accepted :
    TaskLog.validate (some 0) (some ⟨"test", 100, 60, 1, []⟩) (some (-1))
        = Except.ok ⟨0, ⟨"test", 100, 60, 1, []⟩, -1⟩ ∧
      RateLimit.validate (some "test") (some (-1)) (some 60) (some 1) none
        = Except.error "limit: Input should be greater than or equal to 0" ∧
      RateLimit.validate (some "test") (some 100) (some (-1)) (some 1) none
        = Except.error "time_interval: Input should be greater than or equal to 0" ∧
      RateLimit.validate (some "test") (some 100) (some 60) (some (-1)) none
        = Except.error "weight: Input should be greater than or equal to 0" ∧
      LinkedLimitWeightPair.validate (some "test") (some (-1))
        = Except.error "weight: Input should be greater than or equal to 0" := by
  exact ⟨rfl, rfl, rfl, rfl, rfl⟩

/-- Claim C7 counterexample: a `RateLimit` whose `limit_id` is the empty
string is accepted — the source declares no non-emptiness constraint on
`limit_id`, so construction is not rejected. -/
theorem C7_counterexample_empty_limit_id_accepted :
    RateLimit.validate (some "") (some 10) (some 1) (some 1) none
      = Except.ok ⟨"", 10, 1, 1, []⟩ := rfl

/-- Claim C7 amended: `limit_id` is not validated at all — construction with
any string (the empty string included) succeeds whenever the numeric fields
pass their `ge=0` checks. -/
theorem C7_limit_id_not_validated (lid : String) (l : Int) (ti : ℚ) (w : Int)
    (ll : Option (List LinkedLimitWeightPair))
    (hl : 0 ≤ l) (hti : 0 ≤ ti) (hw : 0 ≤ w) :
    RateLimit.validate (some lid) (some l) (some ti) (some w) ll
      = Except.ok ⟨lid, l, ti, w, ll.getD []⟩ := by
  simp only [RateLimit.validate]
  rw [if_neg (not_lt.mpr hl), if_neg (not_lt.mpr hti), if_neg (not_lt.mpr hw)]

/-- Witness for the amended C7 at the empty string. -/
theorem C7_limit_id_not_validated_witness :
    RateLimit.validate (some "") (some 100) (some 60) (some 1) none
      = Except.ok ⟨"", 100, 60, 1, []⟩ :=
  C7_limit_id_not_validated "" 100 60 1 none (by norm_num) (by norm_num) (by norm_num)

/-- Claim C8 counterexample: field assignment after construction is NOT
rejected — the models are not frozen, so `setattr` succeeds and changes the
field. -/
theorem C8_counterexample_setattr_succeeds :
    RateLimit.setattrLimit ⟨"A", 10, 1, 1, []⟩ 999 = Except.ok ⟨"A", 999, 1, 1, []⟩ ∧
      LinkedLimitWeightPair.setattrWeight ⟨"g", 2⟩ 7 = Except.ok ⟨"g", 7⟩ :=
  ⟨rfl, rfl⟩

/-- Claim C8 amended: `RateLimit` and `LinkedLimitWeightPair` are plain
pydantic models without a frozen config, hence mutable: any field assignment
after construction is accepted and updates that field (leaving the other
fields unchanged). -/
theorem C8_models_mutable (r : RateLimit) (p : LinkedLimitWeightPair) (v w : Int) :
    RateLimit.setattrLimit r v = Except.ok { r with limit := v } ∧
      LinkedLimitWeightPair.setattrWeight p w = Except.ok { p with weight := w } :=
  ⟨rfl, rfl⟩

/-- Claim C4: construction produces, at every index, an effective limit whose
`limit` is `floor(original.limit × pct / 100)` with every other field copied
unchanged, and the effective list has the same length as the input. -/
theorem C4_effective_limit_floor (rate_limits : List RateLimit) (pct : ℚ) (i : ℕ)
    (h : i < rate_limits.length) :
    (mkEffectiveLimits rate_limits pct).length = rate_limits.length ∧
      ∃ E, (mkEffectiveLimits rate_limits pct)[i]? = some E ∧
        E.limit = Int.floor ((rate_limits[i].limit : ℚ) * pct / 100) ∧
        E.limit_id = rate_limits[i].limit_id ∧
        E.time_interval = rate_limits[i].time_interval ∧
        E.weight = rate_limits[i].weight ∧
        E.linked_limits = rate_limits[i].linked_limits := by
  refine ⟨by simp [mkEffectiveLimits], ?_⟩
  refine ⟨applyShare pct rate_limits[i], ?_, rfl, rfl, rfl, rfl, rfl⟩
  simp [mkEffectiveLimits, List.getElem?_eq_getElem h]

/-- Witness for C4 at the `test_throttler_initialization` fixture:
share percentage 50 turns the `per_second` limit 10 into 5. -/
theorem C4_effective_limit_floor_witness :
    0 < basicLimits.length ∧
      ∃ E, (mkEffectiveLimits basicLimits 50)[0]? = some E ∧ E.limit = 5 := by
  refine ⟨by decide, ?_⟩
  obtain ⟨hlen, E, hE, hlim, hrest⟩ := C4_effective_limit_floor basicLimits 50 0 (by decide)
  exact ⟨E, hE, by rw [hlim]; with_unfolding_all rfl⟩

/-- Claim C5: `execute_task` with an id absent from the rate-limit map fails
synchronously with the `NoSuchLimit` error — for every clock and every
positive polling fuel the outcome is `noSuchLimit` with the state returned
unchanged (no task-log entry written, no retry sleep taken), and already the
first lock acquisition returns the error. -/
theorem C5_unknown_id_fails_fast (t : AsyncThrottler) (id : String) (clock : ℕ → ℚ)
    (fuel : ℕ) (hid : findLimit t id = none) (hfuel : 0 < fuel) :
    executeTask t id clock fuel = AdmitOutcome.noSuchLimit t ∧
      attemptAcquire t id (clock 0)
        = Except.error ("Rate limit not found for ID: " ++ id) := by
  have hatt : ∀ now, attemptAcquire t id now
      = Except.error ("Rate limit not found for ID: " ++ id) := by
    intro now
    unfold attemptAcquire getRelatedLimits
    rw [hid]
  cases fuel with
  | zero => exact absurd hfuel (by simp)
  | succ n =>
    refine ⟨?_, hatt (clock 0)⟩
    unfold executeTask executeTaskLoop
    rw [hatt (clock 0)]

/-- Witness for C5: the `basicThrottler` has no limit "invalid"; acquisition
fails without consuming any fuel and without touching the state. -/
theorem C5_unknown_id_fails_fast_witness :
    findLimit basicThrottler "invalid" = none ∧
      executeTask basicThrottler "invalid" (fun _ => 0) 3
        = AdmitOutcome.noSuchLimit basicThrottler := by
  have hfind : findLimit basicThrottler "invalid" = none := rfl
  exact ⟨hfind,
    (C5_unknown_id_fails_fast basicThrottler "invalid" (fun _ => 0) 3 hfind
      (by norm_num)).1⟩

/-- A `filterMap` whose function is a lookup mapped through a pairing equals
filtering the resolvable entries and mapping the defaulted lookup. -/
theorem filterMap_lookup_eq_map_filter {α β γ : Type} (f : α → Option β)
    (g : α → β → γ) (d : β) (l : List α) :
    l.filterMap (fun e => (f e).map (g e))
      = (l.filter (fun e => (f e).isSome)).map (fun e => g e ((f e).getD d)) := by
  induction l with
  | nil => rfl
  | cons a tl ih =>
    cases hfa : f a with
    | none => simp [List.filterMap_cons, List.filter_cons, hfa, ih]
    | some b => simp [List.filterMap_cons, List.filter_cons, hfa, ih]

/-- Claim C3: `get_related_limits` returns `(none, [])` for an unknown id;
for a known id it returns the primary and, ordered, the pair
`(primary, primary.weight)` first followed by one `(limit, edge weight)`
pair per declaration-order entry of `linked_limits` whose id resolves
(unknown ids skipped, duplicates preserved). -/
theorem C3_get_related_limits_spec (t : AsyncThrottler) (id : String) :
    (findLimit t id = none → getRelatedLimits t id = (none, [])) ∧
      ∀ primary, findLimit t id = some primary →
        getRelatedLimits t id
          = (some primary,
              (primary, primary.weight) ::
                (primary.linked_limits.filter
                    (fun e => (findLimit t e.limit_id).isSome)).map
                  (fun e => ((findLimit t e.limit_id).getD primary, e.weight))) := by
  constructor
  · intro h
    unfold getRelatedLimits
    rw [h]
  · intro primary h
    unfold getRelatedLimits
    rw [h]
    exact congrArg
      (fun tail => ((some primary : Option RateLimit),
        (primary, primary.weight) :: tail))
      (filterMap_lookup_eq_map_filter (fun e => findLimit t e.limit_id)
        (fun e L => (L, e.weight)) primary primary.linked_limits)

/-- Witness for C3 on a config with an unknown linked id and duplicate
edges: the unknown edge "missing" is skipped, both "global" edges and the
self-edge are preserved in declaration order after the primary. -/
theorem C3_get_related_limits_spec_witness :
    getRelatedLimits dThrottler "d"
      = (some dLimit, [(dLimit, 1), (globalLimit, 2), (globalLimit, 3), (dLimit, 4)]) := by
  have h := (C3_get_related_limits_spec dThrottler "d").2 dLimit rfl
  rw [h]
  rfl

/-- Claim C2: a successful admission extends the (pruned) task log by exactly
one entry per pair of the applicable set — the appended suffix is precisely
one `TaskLog(now, limit, charge_weight)` per related pair, so the log grows
by `len(related_limits)` entries of exactly those charge weights. -/
theorem C2_admission_appends_related (t : AsyncThrottler) (id : String) (now : ℚ)
    (t2 : AsyncThrottler)
    (h : attemptAcquire t id now = Except.ok (true, t2)) :
    t2.task_logs
        = pruneLogs now t.task_logs ++ admissionEntries now (getRelatedLimits t id).2 ∧
      t2.task_logs.length
        = (pruneLogs now t.task_logs).length + ((getRelatedLimits t id).2).length ∧
      admissionEntries now (getRelatedLimits t id).2
        = ((getRelatedLimits t id).2).map (fun p => TaskLog.mk now p.1 p.2) := by
  unfold attemptAcquire at h
  split at h
  · cases h
  · next primary related heq =>
    split at h
    · simp only [Except.ok.injEq, Prod.mk.injEq, true_and] at h
      subst h
      rw [heq]
      refine ⟨rfl, ?_, rfl⟩
      simp [admissionEntries]
    · simp at h

/-- Witness for C2 (the S4 shape): one admission on "endpoint" appends one
weight-1 "endpoint" entry and one weight-2 "global" entry, growing the log by
the two related pairs. -/
theorem C2_admission_appends_related_witness :
    attemptAcquire linkedThrottler "endpoint" 0
        = Except.ok (true, { linkedThrottler with
            task_logs := [⟨0, epLimit, 1⟩, ⟨0, globalLimit, 2⟩] }) ∧
      ({ linkedThrottler with
          task_logs := [⟨0, epLimit, 1⟩, ⟨0, globalLimit, 2⟩] } :
            AsyncThrottler).task_logs.length
        = (pruneLogs 0 linkedThrottler.task_logs).length
            + ((getRelatedLimits linkedThrottler "endpoint").2).length := by
  have hatt : attemptAcquire linkedThrottler "endpoint" 0
      = Except.ok (true, { linkedThrottler with
          task_logs := [⟨0, epLimit, 1⟩, ⟨0, globalLimit, 2⟩] }) := by
    with_unfolding_all rfl
  exact ⟨hatt,
    (C2_admission_appends_related linkedThrottler "endpoint" 0 _ hatt).2.1⟩

/-! ## Invariant machinery for the sliding-window bound (C1) -/

/-- Weight sums only grow along sublists of non-negative-weight logs. -/
theorem sum_map_weight_le_of_sublist {l1 l2 : List TaskLog}
    (hs : l1.Sublist l2) (hn : ∀ e ∈ l2, 0 ≤ e.weight) :
    (l1.map (fun e => e.weight)).sum ≤ (l2.map (fun e => e.weight)).sum := by
  induction hs with
  | slnil => simp
  | cons a hs ih =>
    rename_i l1a l2a
    have ha : 0 ≤ a.weight := hn a (List.mem_cons_self a l2a)
    have hrec := ih (fun e he => hn e (List.mem_cons_of_mem a he))
    simp only [List.map_cons, List.sum_cons]
    omega
  | cons₂ a hs ih =>
    have hrec := ih (fun e he => hn e (List.mem_cons_of_mem a he))
    simp only [List.map_cons, List.sum_cons]
    omega

/-- `totalWeight` distributes over append. -/
theorem totalWeight_append (l1 l2 : List TaskLog) (lid : String) :
    totalWeight (l1 ++ l2) lid = totalWeight l1 lid + totalWeight l2 lid := by
  simp [totalWeight, List.filter_append]

/-- `totalWeight` only shrinks along sublists of non-negative-weight logs. -/
theorem totalWeight_le_of_sublist {l1 l2 : List TaskLog} (hs : l1.Sublist l2)
    (hn : ∀ e ∈ l2, 0 ≤ e.weight) (lid : String) :
    totalWeight l1 lid ≤ totalWeight l2 lid := by
  apply sum_map_weight_le_of_sublist (hs.filter _)
  intro e he
  exact hn e (List.mem_of_mem_filter he)

/-- The in-window sum is bounded by the total logged weight of the id. -/
theorem windowSum_le_totalWeight (logs : List TaskLog) (now : ℚ) (L : RateLimit)
    (hn : ∀ e ∈ logs, 0 ≤ e.weight) :
    windowSum logs now L ≤ totalWeight logs L.limit_id := by
  unfold windowSum totalWeight
  apply sum_map_weight_le_of_sublist
  · apply List.monotone_filter_right
    intro a hpa
    exact (Bool.and_eq_true .. |>.mp hpa).1
  · intro e he
    exact hn e (List.mem_of_mem_filter he)

/-- Membership in the pruned log: the entry was in the log and its age is
within its own limit's interval. -/
theorem mem_pruneLogs {now : ℚ} {logs : List TaskLog} {e : TaskLog}
    (he : e ∈ pruneLogs now logs) :
    e ∈ logs ∧ now - e.timestamp ≤ e.rate_limit.time_interval := by
  unfold pruneLogs at he
  have h := List.mem_filter.mp he
  exact ⟨h.1, by simpa using h.2⟩

/-- When every entry of the id is in-window, the window sum is the total. -/
theorem windowSum_eq_totalWeight (logs : List TaskLog) (now : ℚ) (L : RateLimit)
    (h : ∀ e ∈ logs, e.rate_limit.limit_id = L.limit_id →
      now - e.timestamp ≤ L.time_interval) :
    windowSum logs now L = totalWeight logs L.limit_id := by
  unfold windowSum totalWeight
  have heq : logs.filter (fun e =>
        e.rate_limit.limit_id == L.limit_id &&
          decide (now - e.timestamp ≤ L.time_interval))
      = logs.filter (fun e => e.rate_limit.limit_id == L.limit_id) := by
    apply List.filter_congr
    intro e he
    by_cases hid : e.rate_limit.limit_id = L.limit_id
    · simp [hid, h e he hid]
    · simp [hid]
  rw [heq]

/-- No related pair hits the id: the admission entries contribute nothing. -/
theorem totalWeight_admissionEntries_eq_zero (now : ℚ)
    (related : List (RateLimit × Int)) (lid : String)
    (hnone : ∀ p ∈ related, p.1.limit_id ≠ lid) :
    totalWeight (admissionEntries now related) lid = 0 := by
  unfold totalWeight admissionEntries
  have heq : (related.map (fun p => TaskLog.mk now p.1 p.2)).filter
      (fun e => e.rate_limit.limit_id == lid) = [] := by
    rw [List.filter_eq_nil_iff]
    intro e he
    obtain ⟨p, hp, rfl⟩ := List.mem_map.mp he
    simpa using hnone p hp
  rw [heq]
  rfl

/-- With pairwise-distinct related ids, filtering the related list for the id
of one of its members yields exactly that member. -/
theorem filter_related_eq_single {related : List (RateLimit × Int)}
    {p : RateLimit × Int}
    (hnd : (related.map (fun q => q.1.limit_id)).Nodup) (hp : p ∈ related) :
    related.filter (fun q => q.1.limit_id == p.1.limit_id) = [p] := by
  induction related with
  | nil => cases hp
  | cons a tl ih =>
    simp only [List.map_cons, List.nodup_cons] at hnd
    obtain ⟨hna, hndtl⟩ := hnd
    rcases List.mem_cons.mp hp with rfl | hptl
    · rw [List.filter_cons_of_pos (by simp)]
      have htl : tl.filter (fun q => q.1.limit_id == p.1.limit_id) = [] := by
        rw [List.filter_eq_nil_iff]
        intro q hq
        simp only [beq_iff_eq]
        intro hcontra
        exact hna (hcontra ▸ List.mem_map_of_mem (fun q => q.1.limit_id) hq)
      rw [htl]
    · have hne : a.1.limit_id ≠ p.1.limit_id := by
        intro hcontra
        exact hna (hcontra ▸ List.mem_map_of_mem (fun q => q.1.limit_id) hptl)
      rw [List.filter_cons_of_neg (by simp [hne])]
      exact ih hndtl hptl

/-- With pairwise-distinct related ids, the admission entries contribute to a
member's id exactly that member's charge weight. -/
theorem totalWeight_admissionEntries_eq_charge (now : ℚ)
    {related : List (RateLimit × Int)} {p : RateLimit × Int}
    (hnd : (related.map (fun q => q.1.limit_id)).Nodup) (hp : p ∈ related) :
    totalWeight (admissionEntries now related) p.1.limit_id = p.2 := by
  unfold totalWeight admissionEntries
  rw [List.filter_map]
  have hcomp : related.filter ((fun e => e.rate_limit.limit_id == p.1.limit_id) ∘
        (fun q => TaskLog.mk now q.1 q.2))
      = related.filter (fun q => q.1.limit_id == p.1.limit_id) := rfl
  rw [hcomp, filter_related_eq_single hnd hp]
  simp

/-- A successful lookup returns a configured limit carrying the looked-up id. -/
theorem findLimit_mem {t : AsyncThrottler} {id : String} {L : RateLimit}
    (h : findLimit t id = some L) : L ∈ t.rate_limits ∧ L.limit_id = id := by
  refine ⟨List.mem_of_find?_eq_some h, ?_⟩
  have hpred := List.find?_some h
  simpa using hpred

/-- The first component of `get_related_limits` is exactly the lookup. -/
theorem getRelatedLimits_fst (t : AsyncThrottler) (id : String) :
    (getRelatedLimits t id).1 = findLimit t id := by
  unfold getRelatedLimits
  cases h : findLimit t id <;> simp [h]

/-- Every related pair holds a configured limit and a validated (hence
non-negative) charge weight. -/
theorem mem_related {t : AsyncThrottler} {id : String} {primary : RateLimit}
    (hfind : findLimit t id = some primary)
    (hwf : ∀ L ∈ t.rate_limits, L.NonnegFields) :
    ∀ p ∈ (getRelatedLimits t id).2, p.1 ∈ t.rate_limits ∧ 0 ≤ p.2 := by
  intro p hp
  unfold getRelatedLimits at hp
  rw [hfind] at hp
  simp only at hp
  rcases List.mem_cons.mp hp with rfl | htail
  · obtain ⟨hpm, -⟩ := findLimit_mem hfind
    exact ⟨hpm, (hwf primary hpm).2.2.1⟩
  · obtain ⟨e, he, hfe⟩ := List.mem_filterMap.mp htail
    cases hfl : findLimit t e.limit_id with
    | none => rw [hfl] at hfe; cases hfe
    | some L =>
      rw [hfl] at hfe
      simp only [Option.map_some'] at hfe
      obtain ⟨hLm, -⟩ := findLimit_mem hfl
      obtain ⟨hpm, -⟩ := findLimit_mem hfind
      injection hfe with hfe2
      subst hfe2
      exact ⟨hLm, (hwf primary hpm).2.2.2 e he⟩

/-- The effective cap of a validated limit is non-negative when the safety
margin lies in `[0, 1)`. -/
theorem effectiveCap_nonneg {margin : ℚ} {L : RateLimit}
    (hm0 : 0 ≤ margin) (hm1 : margin < 1) (hL : 0 ≤ L.limit) :
    0 ≤ effectiveCap margin L := by
  unfold effectiveCap
  apply Int.floor_nonneg.mpr
  apply mul_nonneg
  · exact_mod_cast hL
  · linarith

/-- An admission attempt never changes the configuration fields. -/
theorem attemptAcquire_config {t : AsyncThrottler} {id : String} {now : ℚ}
    {b : Bool} {t2 : AsyncThrottler}
    (h : attemptAcquire t id now = Except.ok (b, t2)) :
    t2.rate_limits = t.rate_limits ∧ t2.retry_interval = t.retry_interval ∧
      t2.safety_margin_pct = t.safety_margin_pct := by
  unfold attemptAcquire at h
  split at h
  · cases h
  · split at h <;>
    · simp only [Except.ok.injEq, Prod.mk.injEq] at h
      obtain ⟨-, ht2⟩ := h
      subst ht2
      exact ⟨rfl, rfl, rfl⟩

/-- A run step never changes the configuration fields. -/
theorem throttlerStep_config (t : AsyncThrottler) (ev : String × ℚ) :
    (throttlerStep t ev).rate_limits = t.rate_limits ∧
      (throttlerStep t ev).retry_interval = t.retry_interval ∧
      (throttlerStep t ev).safety_margin_pct = t.safety_margin_pct := by
  unfold throttlerStep
  cases hatt : attemptAcquire t ev.1 ev.2 with
  | error e => exact ⟨rfl, rfl, rfl⟩
  | ok pr =>
    obtain ⟨b, t2⟩ := pr
    exact attemptAcquire_config hatt

/-- One admission attempt preserves the log invariant, given a well-formed
configuration whose applicable sets never charge an id twice. -/
theorem logInv_step (t : AsyncThrottler) (ev : String × ℚ)
    (hwf : ThrottlerWF t) (hnd : NoDupRelated t) (hinv : LogInv t) :
    LogInv (throttlerStep t ev) := by
  obtain ⟨hndid, hnn, hm0, hm1⟩ := hwf
  obtain ⟨hA, hB⟩ := hinv
  unfold throttlerStep
  cases hatt : attemptAcquire t ev.1 ev.2 with
  | error e => exact ⟨hA, hB⟩
  | ok pr =>
    obtain ⟨b, t2⟩ := pr
    unfold attemptAcquire at hatt
    split at hatt
    · cases hatt
    · rename_i primary related heq
      have hfind : findLimit t ev.1 = some primary := by
        rw [← getRelatedLimits_fst, heq]
      obtain ⟨hpmem, hpid⟩ := findLimit_mem hfind
      have hndrel : (related.map (fun q => q.1.limit_id)).Nodup := by
        have h := hnd primary hpmem
        rw [hpid, heq] at h
        exact h
      have hrelmem : ∀ p ∈ related, p.1 ∈ t.rate_limits ∧ 0 ≤ p.2 := by
        have h := mem_related hfind hnn
        rw [heq] at h
        exact h
      split at hatt
      · rename_i hcheck
        simp only [Except.ok.injEq, Prod.mk.injEq] at hatt
        obtain ⟨-, ht2⟩ := hatt
        subst ht2
        have hAnew : ∀ e ∈ pruneLogs ev.2 t.task_logs ++ admissionEntries ev.2 related,
            e.rate_limit ∈ t.rate_limits ∧ 0 ≤ e.weight := by
          intro e he
          rcases List.mem_append.mp he with hep | hee
          · exact hA e (mem_pruneLogs hep).1
          · unfold admissionEntries at hee
            obtain ⟨p, hp, rfl⟩ := List.mem_map.mp hee
            exact hrelmem p hp
        refine ⟨hAnew, ?_⟩
        intro L hL
        show totalWeight (pruneLogs ev.2 t.task_logs ++ admissionEntries ev.2 related)
            L.limit_id ≤ effectiveCap t.safety_margin_pct L
        rw [totalWeight_append]
        by_cases hex : ∃ p ∈ related, p.1.limit_id = L.limit_id
        · obtain ⟨p, hp, hpid2⟩ := hex
          have hpL : p.1 = L :=
            List.inj_on_of_nodup_map hndid (hrelmem p hp).1 hL hpid2
          have hcheckp : windowSum (pruneLogs ev.2 t.task_logs) ev.2 p.1 + p.2
              ≤ effectiveCap t.safety_margin_pct p.1 := by
            unfold admitCheck at hcheck
            have h := List.all_eq_true.mp hcheck p hp
            simpa using h
          have hweq : windowSum (pruneLogs ev.2 t.task_logs) ev.2 L
              = totalWeight (pruneLogs ev.2 t.task_logs) L.limit_id := by
            apply windowSum_eq_totalWeight
            intro e he hid2
            obtain ⟨hel, hele⟩ := mem_pruneLogs he
            have herl : e.rate_limit ∈ t.rate_limits := (hA e hel).1
            have heL : e.rate_limit = L :=
              List.inj_on_of_nodup_map hndid herl hL hid2
            rw [← heL]
            exact hele
          have hentry : totalWeight (admissionEntries ev.2 related) L.limit_id = p.2 := by
            rw [← hpid2]
            exact totalWeight_admissionEntries_eq_charge ev.2 hndrel hp
          rw [hentry, ← hweq, ← hpL]
          exact hcheckp
        · push_neg at hex
          rw [totalWeight_admissionEntries_eq_zero ev.2 related L.limit_id hex, add_zero]
          have hle : totalWeight (pruneLogs ev.2 t.task_logs) L.limit_id
              ≤ totalWeight t.task_logs L.limit_id :=
            totalWeight_le_of_sublist (List.filter_sublist t.task_logs)
              (fun e he => (hA e he).2) L.limit_id
          exact le_trans hle (hB L hL)
      · rename_i hcheck
        simp only [Except.ok.injEq, Prod.mk.injEq] at hatt
        obtain ⟨-, ht2⟩ := hatt
        subst ht2
        refine ⟨?_, ?_⟩
        · intro e he
          exact hA e (mem_pruneLogs he).1
        · intro L hL
          have hle : totalWeight (pruneLogs ev.2 t.task_logs) L.limit_id
              ≤ totalWeight t.task_logs L.limit_id :=
            totalWeight_le_of_sublist (List.filter_sublist t.task_logs)
              (fun e he => (hA e he).2) L.limit_id
          exact le_trans hle (hB L hL)

/-- The log invariant holds initially: the log is empty and every effective
cap is non-negative. -/
theorem logInv_init (t : AsyncThrottler) (hwf : ThrottlerWF t)
    (hempty : t.task_logs = []) : LogInv t := by
  obtain ⟨-, hnn, hm0, hm1⟩ := hwf
  constructor
  · intro e he
    rw [hempty] at he
    cases he
  · intro L hL
    rw [hempty]
    have hzero : totalWeight [] L.limit_id = 0 := rfl
    rw [hzero]
    exact effectiveCap_nonneg hm0 hm1 (hnn L hL).1

/-- `get_related_limits` depends on the state only through the limit list. -/
theorem getRelatedLimits_congr {s t : AsyncThrottler}
    (h : s.rate_limits = t.rate_limits) (id : String) :
    getRelatedLimits s id = getRelatedLimits t id := by
  unfold getRelatedLimits findLimit
  rw [h]

/-- Well-formedness depends only on the limit list and the safety margin. -/
theorem throttlerWF_congr {s t : AsyncThrottler}
    (h1 : s.rate_limits = t.rate_limits)
    (h2 : s.safety_margin_pct = t.safety_margin_pct)
    (hwf : ThrottlerWF t) : ThrottlerWF s := by
  unfold ThrottlerWF at hwf ⊢
  rw [h1, h2]
  exact hwf

/-- The no-duplicate-related condition depends only on the limit list. -/
theorem noDupRelated_congr {s t : AsyncThrottler}
    (h1 : s.rate_limits = t.rate_limits) (hnd : NoDupRelated t) : NoDupRelated s := by
  unfold NoDupRelated at hnd ⊢
  intro L hL
  rw [getRelatedLimits_congr h1]
  exact hnd L (h1 ▸ hL)

/-- The log invariant is preserved along every run, and runs never change the
configuration fields. -/
theorem logInv_run (evs : List (String × ℚ)) :
    ∀ t : AsyncThrottler, ThrottlerWF t → NoDupRelated t → LogInv t →
      LogInv (throttlerRun t evs) ∧
        (throttlerRun t evs).rate_limits = t.rate_limits ∧
        (throttlerRun t evs).safety_margin_pct = t.safety_margin_pct := by
  induction evs with
  | nil =>
    intro t _ _ hinv
    exact ⟨hinv, rfl, rfl⟩
  | cons ev tl ih =>
    intro t hwf hnd hinv
    have hstep := throttlerStep_config t ev
    have hrun : throttlerRun t (ev :: tl) = throttlerRun (throttlerStep t ev) tl := rfl
    rw [hrun]
    have hwf2 : ThrottlerWF (throttlerStep t ev) :=
      throttlerWF_congr hstep.1 hstep.2.2 hwf
    have hnd2 : NoDupRelated (throttlerStep t ev) := noDupRelated_congr hstep.1 hnd
    have hinv2 : LogInv (throttlerStep t ev) := logInv_step t ev hwf hnd hinv
    obtain ⟨ha, hb, hc⟩ := ih (throttlerStep t ev) hwf2 hnd2 hinv2
    exact ⟨ha, hb.trans hstep.1, hc.trans hstep.2.2⟩

/-- Claim C1 amended: for every run from an empty log over a well-formed
configuration in which no applicable set charges the same limit id twice, at
every instant the in-window weight sum of every configured limit stays within
`floor(limit × (1 - safety_margin_pct))`. (As stated the claim is false for
configurations with duplicate/self-linked edges, which §4.2 explicitly
permits: a single admission can double-charge past the cap — see the
counterexample.) The admission check itself compares window sum plus charge
weight against this very cap before appending, by definition of
`attemptAcquire` via `admitCheck`. -/
theorem C1_window_sum_bounded (t0 : AsyncThrottler) (evs : List (String × ℚ))
    (L : RateLimit) (tt : ℚ)
    (hwf : ThrottlerWF t0) (hnd : NoDupRelated t0) (hempty : t0.task_logs = [])
    (hL : L ∈ t0.rate_limits) :
    windowSum (throttlerRun t0 evs).task_logs tt L
      ≤ effectiveCap t0.safety_margin_pct L := by
  obtain ⟨hinv, hrl, hsm⟩ := logInv_run evs t0 hwf hnd (logInv_init t0 hwf hempty)
  obtain ⟨hA, hB⟩ := hinv
  have hLmem : L ∈ (throttlerRun t0 evs).rate_limits := by
    rw [hrl]
    exact hL
  have h1 := hB L hLmem
  rw [hsm] at h1
  have h2 : windowSum (throttlerRun t0 evs).task_logs tt L
      ≤ totalWeight (throttlerRun t0 evs).task_logs L.limit_id :=
    windowSum_le_totalWeight _ _ _ (fun e he => (hA e he).2)
  exact le_trans h2 h1

/-- Witness for the amended C1: one admission on the linked fixture keeps the
"endpoint" window sum within its cap. -/
theorem C1_window_sum_bounded_witness :
    ThrottlerWF linkedThrottler ∧
      windowSum (throttlerRun linkedThrottler [("endpoint", 0)]).task_logs 0 epLimit
        ≤ effectiveCap linkedThrottler.safety_margin_pct epLimit :=
  ⟨by with_unfolding_all decide,
    C1_window_sum_bounded linkedThrottler [("endpoint", 0)] epLimit 0
      (by with_unfolding_all decide) (by decide) rfl (by decide)⟩

/-- Counterexample to C1 as stated: with the self-linked limit "A"
(`limit = 1`, edge weight 1, zero safety margin) a single admission from the
empty log is granted — each check sees window sum 0 and 0 + 1 ≤ 1 — yet it
appends two weight-1 entries, so the in-window sum 2 exceeds the cap 1. -/
theorem C1_counterexample_self_link :
    ThrottlerWF selfThrottler ∧ selfThrottler.task_logs = [] ∧
      selfALimit ∈ selfThrottler.rate_limits ∧
      effectiveCap selfThrottler.safety_margin_pct selfALimit
        < windowSum (throttlerRun selfThrottler [("A", 0)]).task_logs 0 selfALimit :=
  ⟨by with_unfolding_all decide, rfl, by decide, by with_unfolding_all decide⟩
